import Mathlib

/-!
Verification development for the ai_code_reviewer service.

The definitions below are a shallow embedding of the TypeScript sources:
  * `src/lib/code-review-service.ts` — language detection/validation and the
    review pipeline (`performReview`),
  * `src/lib/websocket-handler.ts` — the per-session message handler
    (`handleCodeReview`),
  * `src/index.ts` — the HTTP test-review handler (`handleTestReview`),
  * `worker/lib/rate-limiter.ts` — fixed-window rate limiting (`checkLimit`),
  * `worker/lib/database-service.ts` — confidence extraction
    (`extractConfidence`),
  * the cache service — `hashCode` / `generateCacheKey`.

JavaScript strings are modelled as Lean `String` (sequences of characters);
`s.slice(0, n)` becomes `jsSlice s n`, `s.toLowerCase()` becomes `lowerStr s`,
and so on.  Regular-expression `test`/`match` calls are embedded through a
small executable matcher (`RE` / `reTest`, and the token matcher used for the
confidence patterns) that realises exactly the constructs the source patterns
use.  Times (`Date.now()`) are naturals counting milliseconds.  External
collaborators (the model endpoint, the KV store, `crypto.subtle`) appear as
explicit parameters or as faithful pure implementations (SHA-256).
-/

namespace AiCodeReviewer

/-! ## JavaScript string primitives -/

/-- `s.slice(0, n)` on a JS string: the first `n` characters. -/
def jsSlice (s : String) (n : Nat) : String := ⟨s.data.take n⟩

/-- `s.toLowerCase()` (the sources only rely on ASCII case mapping). -/
def lowerStr (s : String) : String := ⟨s.data.map Char.toLower⟩

/-- The character set matched by the JS `\s` class (ASCII part, which is all
the sources exercise). -/
def isSpaceChar (c : Char) : Bool :=
  c = ' ' || c = '\t' || c = '\n' || c = '\r' || c = '\x0b' || c = '\x0c'

/-- JS `\w`: `[A-Za-z0-9_]`. -/
def isWordChar (c : Char) : Bool :=
  ('a' ≤ c && c ≤ 'z') || ('A' ≤ c && c ≤ 'Z') || ('0' ≤ c && c ≤ '9') || c = '_'

/-- JS `\d`. -/
def isDigitChar (c : Char) : Bool := '0' ≤ c && c ≤ '9'

/-- `s.trim()`: strip `\s` characters from both ends. -/
def jsTrim (s : String) : String :=
  ⟨((s.data.dropWhile isSpaceChar).reverse.dropWhile isSpaceChar).reverse⟩

/-- `array.join(sep)`. -/
def strJoin (sep : String) : List String → String
  | [] => ""
  | [x] => x
  | x :: xs => x ++ sep ++ strJoin sep xs

/-- JS `value || default` for an optional string: the default is used when the
value is absent (`undefined`) or empty (falsy). -/
def jsOr (o : Option String) (d : String) : String :=
  match o with
  | some s => if s = "" then d else s
  | none => d

/-- Search for a literal occurrence; returns the remainder after the first
occurrence when there is one. -/
def findLit (pat : List Char) : List Char → Option (List Char)
  | [] => if pat.isEmpty then some [] else none
  | c :: t =>
    if pat.isPrefixOf (c :: t) then some ((c :: t).drop pat.length)
    else findLit pat t

/-- `s.includes(pat)` (also the semantics of testing a purely literal regex). -/
def containsStr (s pat : String) : Bool := (findLit pat.data s.data).isSome

/-! ## A small regex matcher

The language-detection patterns of `code-review-service.ts` use only:
literals, alternation, the character classes `\w`, `\s`, `\d`, `[A-Z]`,
`[^>]`, `.`, the quantifiers `*`/`+` applied to a class, the word-boundary
assertion `\b`, and the end anchor `$`.  `matchFrom` enumerates every way a
regex can consume a prefix of the input (returning the last consumed
character, needed by `\b`, together with the remainder); `reTest` is JS
`regex.test(s)`: some match starting at some position. -/

inductive CharClass where
  | word | space | digit | upperAZ | notGt | dot
deriving Repr, DecidableEq

def CharClass.matches : CharClass → Char → Bool
  | .word, c => isWordChar c
  | .space, c => isSpaceChar c
  | .digit, c => isDigitChar c
  | .upperAZ, c => 'A' ≤ c && c ≤ 'Z'
  | .notGt, c => c ≠ '>'
  | .dot, c => c ≠ '\n'

inductive RE where
  | lit : String → RE
  | cls : CharClass → RE
  | seq : RE → RE → RE
  | alt : RE → RE → RE
  | starC : CharClass → RE
  | plusC : CharClass → RE
  | wb : RE
  | eos : RE
deriving Repr, DecidableEq

/-- Alternation of a non-empty list of regexes (`(a|b|c|…)`). -/
def altN : List RE → RE
  | [] => RE.lit "\x00"
  | [r] => r
  | r :: rs => RE.alt r (altN rs)

/-- Word boundary test between the previously consumed character and the next
character of the remainder (string edges count as non-word). -/
def wordBoundary (prev : Option Char) (l : List Char) : Bool :=
  (match prev with | some c => isWordChar c | none => false)
    != (match l with | c :: _ => isWordChar c | [] => false)

/-- Match a literal starting at the current position. -/
def litMatch : List Char → Option Char → List Char → List (Option Char × List Char)
  | [], prev, l => [(prev, l)]
  | p :: ps, _, c :: t => if p = c then litMatch ps (some c) t else []
  | _ :: _, _, [] => []

/-- All the ways `cls*` can consume a prefix (0 up to the maximal run). -/
def starSplits (p : Char → Bool) : Option Char → List Char → List (Option Char × List Char)
  | prev, [] => [(prev, [])]
  | prev, c :: t =>
    (prev, c :: t) :: (if p c then starSplits p (some c) t else [])

/-- All the ways a regex can consume a prefix of `l`, given the character just
before the current position. -/
def matchFrom : RE → Option Char → List Char → List (Option Char × List Char)
  | .lit s, prev, l => litMatch s.data prev l
  | .cls k, _, l =>
    match l with
    | [] => []
    | c :: t => if k.matches c then [(some c, t)] else []
  | .seq a b, prev, l =>
    (matchFrom a prev l).flatMap fun pr => matchFrom b pr.1 pr.2
  | .alt a b, prev, l => matchFrom a prev l ++ matchFrom b prev l
  | .starC k, prev, l => starSplits k.matches prev l
  | .plusC k, _, l =>
    match l with
    | [] => []
    | c :: t => if k.matches c then starSplits k.matches (some c) t else []
  | .wb, prev, l => if wordBoundary prev l then [(prev, l)] else []
  | .eos, prev, l =>
    match l with
    | [] => [(prev, [])]
    | _ :: _ => []

/-- Every start position of the text, together with the character before it. -/
def startPositions : Option Char → List Char → List (Option Char × List Char)
  | prev, [] => [(prev, [])]
  | prev, c :: t => (prev, c :: t) :: startPositions (some c) t

/-- JS `regex.test(s)`. -/
def reTest (r : RE) (s : String) : Bool :=
  (startPositions none s.data).any fun pr => !(matchFrom r pr.1 pr.2).isEmpty

/-! ## Language detection (`code-review-service.ts`, `LANGUAGE_PATTERNS`) -/

/-- `\b(w₁|w₂|…)\b`. -/
def kw (ws : List String) : RE := .seq .wb (.seq (altN (ws.map RE.lit)) .wb)

/-- `\.(e₁|e₂|…)$`. -/
def exts (es : List String) : RE := .seq (.lit ".") (.seq (altN (es.map RE.lit)) .eos)

/-- `l₁|l₂|…` over literals. -/
def lits (ls : List String) : RE := altN (ls.map RE.lit)

def LANGUAGE_PATTERNS : List (String × List RE) :=
  [("javascript",
    [kw ["function", "const", "let", "var", "=>", "console.log", "require", "import", "export"],
     kw ["async", "await", "Promise", "setTimeout", "setInterval"],
     exts ["js", "jsx", "ts", "tsx"],
     lits ["document.", "window.", "localStorage."],
     lits ["React.", "useState", "useEffect"]]),
   ("typescript",
    [kw ["interface", "type", "enum", "namespace", "implements", "extends"],
     .seq (.lit ":") (.seq (.starC .space) (lits ["string", "number", "boolean", "any", "void", "object"])),
     exts ["ts", "tsx"],
     .seq (.lit "<") (.seq (.cls .upperAZ) (.seq (.starC .notGt) (.lit ">"))),
     .seq .wb (.seq (.lit "as") (.seq (.plusC .space) (.plusC .word)))]),
   ("python",
    [kw ["def", "class", "import", "from", "if __name__", "print", "len", "range"],
     kw ["self", "None", "True", "False", "elif", "lambda"],
     exts ["py"],
     .seq (.lit "@") (.plusC .word),
     .seq .wb (.seq (.lit "with") (.seq (.plusC .space) (.seq (.plusC .word) (.seq (.starC .dot) (.lit ":")))))]),
   ("java",
    [kw ["public", "private", "protected", "static", "class", "interface", "extends", "implements"],
     kw ["String", "int", "boolean", "void", "ArrayList", "HashMap"],
     exts ["java"],
     .lit "System.out.println",
     .seq .wb (.seq (.lit "new") (.seq (.plusC .space) (.seq (.plusC .word) (.lit "("))))]),
   ("go",
    [kw ["package", "func", "var", "const", "import", "type", "struct", "interface"],
     kw ["fmt.Print", "make", "append", "len", "cap"],
     exts ["go"],
     .lit ":=",
     .seq .wb (.seq (.lit "go") (.seq (.plusC .space) (.plusC .word)))]),
   ("rust",
    [kw ["fn", "let", "mut", "impl", "struct", "enum", "trait", "use", "mod"],
     kw ["String", "Vec", "Option", "Result", "unwrap", "expect"],
     exts ["rs"],
     .lit "println!",
     lits ["&str", "&mut"]]),
   ("cpp",
    [kw ["#include", "using namespace", "class", "struct", "template", "public", "private"],
     kw ["std::", "cout", "cin", "endl", "vector", "string"],
     exts ["cpp", "cc", "cxx", "h", "hpp"],
     .seq (.lit "#include") (.seq (.starC .space) (.seq (.lit "<") (.seq (.plusC .word) (.lit ">")))),
     .seq .wb (.seq (.lit "int") (.seq (.plusC .space) (.seq (.lit "main") (.seq (.starC .space) (.lit "(")))))]),
   ("csharp",
    [kw ["using", "namespace", "class", "struct", "interface", "public", "private", "static"],
     kw ["string", "int", "bool", "void", "List", "Dictionary", "Console.WriteLine"],
     exts ["cs"],
     .seq (.lit "[") (.seq (.starC .dot) (.lit "]")),
     .seq .wb (.seq (.lit "new") (.seq (.plusC .space) (.seq (.plusC .word) (.lit "("))))])]

/-- One pattern counts as matching when it tests true on the lowercased code
or on the code as written (`pattern.test(codeNormalized) || pattern.test(code)`). -/
def patternHit (r : RE) (code : String) : Bool :=
  reTest r (lowerStr code) || reTest r code

/-- `detectLanguage`: a language is a candidate when at least two of its
patterns match; candidates are listed in the table's order. -/
def detectLanguage (code : String) : List String :=
  (LANGUAGE_PATTERNS.filter fun lp => 2 ≤ (lp.2.filter fun r => patternHit r code).length).map
    Prod.fst

structure ValidationResult where
  isValid : Bool
  detectedLanguages : List String
  suggestion : Option String := none
  errorMessage : Option String := none
deriving Repr, DecidableEq

/-- `[{}();=\[\]]` membership (the first half of the code-structure test). -/
def hasStructureChar (c : Char) : Bool :=
  c = '\x7b' || c = '\x7d' || c = '(' || c = ')' || c = ';' || c = '=' || c = '[' || c = ']'

/-- `/[{}();=\[\]]/.test(code) || /\b(if|for|while|function|class)\b/i.test(code)`.
The second regex is case-insensitive; its alternatives are lowercase words and
`\b` is case-blind, so testing the lowercased text is equivalent. -/
def hasCodeStructure (code : String) : Bool :=
  code.data.any hasStructureChar
    || reTest (kw ["if", "for", "while", "function", "class"]) (lowerStr code)

/-- `validateLanguage` from `code-review-service.ts`. -/
def validateLanguage (code : String) (providedLanguage : String) : ValidationResult :=
  let detected := detectLanguage code
  if detected.isEmpty then
    if !hasCodeStructure code && 10 < (jsTrim code).length then
      { isValid := false, detectedLanguages := [],
        errorMessage :=
          some "The provided text doesn\x27t appear to be code. Please provide actual source code for review." }
    else
      { isValid := true, detectedLanguages := [],
        suggestion := some "Could not detect specific language. Proceeding with generic code review." }
  else
    if !(detected.contains (lowerStr providedLanguage)) then
      { isValid := false, detectedLanguages := detected,
        suggestion := some ("Try selecting \x22" ++ detected.headD "" ++ "\x22 instead."),
        errorMessage :=
          some ("Code appears to be " ++ strJoin " or " detected ++ " but you selected "
            ++ providedLanguage ++ ". Please select the correct language for accurate analysis.") }
    else
      { isValid := true, detectedLanguages := detected }

/-! ## Review pipeline (`CodeReviewService`) -/

def SYSTEM_PROMPTS : List (String × String) :=
  [("quick", "You are an expert code reviewer with deep knowledge of multiple programming languages, security best practices, and software engineering principles. \n          Provide a quick overall code quality assessment covering: clarity, maintainability, potential bugs, and basic best practices."),
   ("security", "You are an expert code reviewer with deep knowledge of multiple programming languages, security best practices, and software engineering principles.\n             Focus on security vulnerabilities including: SQL injection, XSS, authentication issues, sensitive data exposure, input validation, and other OWASP top 10 concerns."),
   ("performance", "You are an expert code reviewer with deep knowledge of multiple programming languages, security best practices, and software engineering principles.\n                Analyze performance aspects: algorithmic complexity, memory usage, database query optimization, caching opportunities, async/await patterns, and scalability concerns."),
   ("documentation", "You are an expert code reviewer with deep knowledge of multiple programming languages, security best practices, and software engineering principles.\n                  Review documentation quality and suggest improvements: function/class documentation, inline comments, README updates, API documentation, and code clarity.")]

/-- `SYSTEM_PROMPTS[category] || SYSTEM_PROMPTS.quick`. -/
def getSystemPrompt (category : String) : String :=
  (SYSTEM_PROMPTS.lookup category).getD ((SYSTEM_PROMPTS.headD ("", "")).2)

def formatCodeForReview (code : String) (language : Option String) : String :=
  "Review this code:\n```" ++ language.getD "" ++ "\n" ++ code ++ "\n```"

structure CodeReviewRequest where
  code : String
  category : String
  language : Option String
deriving Repr, DecidableEq

instance {ε α : Type} [DecidableEq ε] [DecidableEq α] : DecidableEq (Except ε α) := fun a b =>
  match a, b with
  | .ok x, .ok y => if h : x = y then .isTrue (by rw [h]) else .isFalse (by simp [h])
  | .error x, .error y => if h : x = y then .isTrue (by rw [h]) else .isFalse (by simp [h])
  | .ok _, .error _ => .isFalse (by simp)
  | .error _, .ok _ => .isFalse (by simp)

/-- The value produced by the external model call `ai.run(model, …)`:
either a plain string, or an object whose relevant optional string fields are
`response`, `text`, `content`, `message`, `output`.  `stringified` stands for
`JSON.stringify` of the object (an external, deterministic serialisation),
used only by the fallback branch. -/
inductive AIResponse where
  | str : String → AIResponse
  | obj : Option String → Option String → Option String → Option String → Option String →
      String → AIResponse
deriving Repr, DecidableEq

/-- JS truthiness of an optional string field (`undefined` and `""` are falsy). -/
def jsTruthyS : Option String → Bool
  | some s => s ≠ ""
  | none => false

/-- The response-shape dispatch of `performReview`: `response.response`, then
`typeof response === 'string'`, then `.text`, then `.content`, then the
fallback `response?.message || response?.output || JSON.stringify(response)`.
A non-string or falsy final result throws the unexpected-format error. -/
def extractText (r : AIResponse) : Except String String :=
  match r with
  | .str s =>
    if s ≠ "" then .ok s
    else
      -- every object-field access on a falsy string short-circuits, so the
      -- fallback runs: `JSON.stringify("")` is the two-character string `""`.
      .ok ("\x22" ++ s ++ "\x22")
  | .obj response text content message output stringified =>
    if jsTruthyS response then .ok (response.getD "")
    else if jsTruthyS text then .ok (text.getD "")
    else if jsTruthyS content then .ok (content.getD "")
    else
      let result :=
        if jsTruthyS message then message.getD ""
        else if jsTruthyS output then output.getD "" else stringified
      if result ≠ "" then .ok result
      else .error ("Unexpected AI response format: " ++ stringified)

/-- `CodeReviewService.performReview`, with the external model call reified as
its outcome `air` (`.error e` models `ai.run` throwing `e`).  Returns both the
final response (language note prepended) and the raw accumulated text handed
to the `onChunk` callback.  Errors thrown inside the `try` block are re-thrown
with the `AI review failed: ` prefix; a language-validation rejection is
thrown before the `try` and keeps its own message (with the suggestion
appended after the 💡 marker). -/
def performReviewParts (air : Except String AIResponse) (data : CodeReviewRequest) :
    Except String (String × String) :=
  let validation := validateLanguage data.code (jsOr data.language "javascript")
  if !validation.isValid then
    .error ((validation.errorMessage.getD "Language validation failed")
      ++ (match validation.suggestion with
          | some s => "\n\n💡 " ++ s
          | none => ""))
  else
    let languageNote :=
      match validation.suggestion with
      | some s => "\n\n**Language Detection Note:** " ++ s ++ "\n\n"
      | none =>
        if 1 < validation.detectedLanguages.length then
          "\n\n**Language Detection:** Code appears to be "
            ++ strJoin " or " validation.detectedLanguages ++ ".\n\n"
        else ""
    match air with
    | .error e => .error ("AI review failed: " ++ e)
    | .ok resp =>
      match extractText resp with
      | .error e => .error ("AI review failed: " ++ e)
      | .ok fullResponse =>
        if fullResponse = "" || jsTrim fullResponse = "" then
          .error "AI review failed: AI returned empty response"
        else .ok (languageNote ++ fullResponse, fullResponse)

/-- The value `performReview` resolves with (the language note prepended to
the accumulated model output), or the error it rejects with. -/
def performReview (air : Except String AIResponse) (data : CodeReviewRequest) :
    Except String String :=
  (performReviewParts air data).map Prod.fst

/-! ## WebSocket handler (`websocket-handler.ts`) -/

structure HistoryEntry where
  role : String
  content : String
  timestamp : Nat
deriving Repr, DecidableEq

structure Review where
  id : String
  code : String
  category : String
  result : String
  timestamp : Nat
deriving Repr, DecidableEq

structure ReviewState where
  history : List HistoryEntry
  reviews : List Review
deriving Repr, DecidableEq

inductive OutMsg where
  | stream : String → String → OutMsg
  | done : Review → OutMsg
  | error : String → OutMsg
deriving Repr, DecidableEq

/-- The user turn pushed onto `history` at the top of `handleCodeReview`. -/
def userEntryOf (data : CodeReviewRequest) (now : Nat) : HistoryEntry :=
  { role := "user",
    content := "Review this " ++ jsOr data.language "code" ++ " (" ++ data.category
      ++ " analysis):\n" ++ jsSlice data.code 500 ++ "...",
    timestamp := now }

/-- `WebSocketHandler.handleCodeReview`: pushes the user turn, emits the init
frame, runs the pipeline, and on success stores the review and assistant turn
and emits `done`; on any pipeline failure emits an `error` frame.  `reviewId`
reifies `generateReviewId()` and `now` reifies `Date.now()`. -/
def handleCodeReview (st : ReviewState) (data : CodeReviewRequest)
    (air : Except String AIResponse) (reviewId : String) (now : Nat) :
    ReviewState × List OutMsg :=
  let st1 : ReviewState := { st with history := st.history ++ [userEntryOf data now] }
  let initMsg := OutMsg.stream "init"
    ("Starting " ++ data.category ++ " review for " ++ jsOr data.language "code" ++ "...")
  match performReviewParts air data with
  | .ok (fullResponse, raw) =>
    let review : Review :=
      { id := reviewId, code := jsSlice data.code 2000, category := data.category,
        result := fullResponse, timestamp := now }
    ({ history := st1.history
        ++ [{ role := "assistant", content := jsSlice fullResponse 500, timestamp := now }],
       reviews := st1.reviews ++ [review] },
     [initMsg, OutMsg.stream "analysis" raw, OutMsg.done review])
  | .error e => (st1, [initMsg, OutMsg.error e])

/-! ## HTTP test-review handler (`index.ts`, `handleTestReview`) -/

structure TestReview where
  id : String
  code : String
  category : String
  language : String
  result : String
  timestamp : Nat
deriving Repr, DecidableEq

structure TestReviewOut where
  success : Bool
  review : Option TestReview
  error : Option String
  status : Nat
deriving Repr, DecidableEq

/-- `handleTestReview`: destructuring defaults (`category = 'quick'`,
`language = 'javascript'`) apply when the field is absent; the `result` field
of the returned review is the chunk-accumulated text (the raw model output,
without the language note). -/
def handleTestReview (air : Except String AIResponse) (code : String)
    (category language : Option String) (id : String) (now : Nat) : TestReviewOut :=
  match performReviewParts air
      ⟨code, category.getD "quick", some (language.getD "javascript")⟩ with
  | .ok (_, raw) =>
    { success := true,
      review := some ⟨id, jsSlice code 2000, category.getD "quick",
        language.getD "javascript", raw, now⟩,
      error := none, status := 200 }
  | .error e => { success := false, review := none, error := some e, status := 500 }

/-! ## Rate limiter (`rate-limiter.ts`, `RateLimiterService.checkLimit`)

The backing KV namespace is modelled as the partial map `data` from keys to
stored `RateLimitEntry` values, plus two fault flags: `getThrows` (the
`kv.get` call throws) and `putThrows` (a `kv.put` call throws).  A thrown
get/put lands in the `catch` block, which fails open.  The store's TTL
machinery is the platform's own expiry and does not affect any result
`checkLimit` returns, so it is not modelled. -/

structure RateLimitConfig where
  maxRequests : Nat
  windowSizeSeconds : Nat
deriving Repr, DecidableEq

structure RateLimitEntry where
  count : Nat
  windowStart : Nat
  windowEnd : Nat
deriving Repr, DecidableEq

structure RateLimitResult where
  allowed : Bool
  remaining : Int
  resetAt : Nat
  retryAfter : Option Nat := none
deriving Repr, DecidableEq

structure KVStore where
  data : String → Option RateLimitEntry
  getThrows : Bool
  putThrows : Bool

/-- `generateKey`. -/
def generateKey (identifier configName : String) : String :=
  "ratelimit:" ++ configName ++ ":" ++ identifier

/-- A successful `kv.put` of a JSON-encoded entry. -/
def kvPut (kv : KVStore) (key : String) (e : RateLimitEntry) : KVStore :=
  { kv with data := fun k => if k = key then some e else kv.data k }

/-- `Math.ceil(n / 1000)` for a natural number of milliseconds. -/
def ceilDiv1000 (n : Nat) : Nat := (n + 999) / 1000

/-- `RateLimiterService.checkLimit` for an already-resolved configuration.
`now` reifies `Date.now()`. -/
def checkLimit (kv : KVStore) (identifier : String) (cfg : RateLimitConfig)
    (configName : String) (now : Nat) : RateLimitResult × KVStore :=
  let key := generateKey identifier configName
  let windowSizeMs := cfg.windowSizeSeconds * 1000
  -- the `catch` block: fail open, allow with the full quota
  let failOpen : RateLimitResult :=
    { allowed := true, remaining := (cfg.maxRequests : Int), resetAt := now + windowSizeMs }
  -- `!entry || now > entry.windowEnd`: start a fresh window with count 1
  let freshWindow : RateLimitResult × KVStore :=
    let newEntry : RateLimitEntry := ⟨1, now, now + windowSizeMs⟩
    if kv.putThrows then (failOpen, kv)
    else
      ({ allowed := true, remaining := (cfg.maxRequests : Int) - 1,
         resetAt := newEntry.windowEnd },
       kvPut kv key newEntry)
  if kv.getThrows then (failOpen, kv)
  else
    match kv.data key with
    | none => freshWindow
    | some entry =>
      if entry.windowEnd < now then freshWindow
      else if cfg.maxRequests ≤ entry.count then
        ({ allowed := false, remaining := 0, resetAt := entry.windowEnd,
           retryAfter := some (ceilDiv1000 (entry.windowEnd - now)) },
         kv)
      else
        let entry' : RateLimitEntry := { entry with count := entry.count + 1 }
        if kv.putThrows then (failOpen, kv)
        else
          ({ allowed := true, remaining := (cfg.maxRequests : Int) - (entry'.count : Int),
             resetAt := entry.windowEnd },
           kvPut kv key entry')

/-- Whether this `checkLimit` call reaches a `kv.put` (it does in the
fresh-window and increment branches, but not on a denial). -/
def checkLimitWrites (kv : KVStore) (identifier : String) (cfg : RateLimitConfig)
    (configName : String) (now : Nat) : Bool :=
  match kv.data (generateKey identifier configName) with
  | none => true
  | some entry => entry.windowEnd < now || entry.count < cfg.maxRequests

/-! ## Confidence extraction (`database-service.ts`, `extractConfidence`)

The five explicit-score regexes all have the shape "literals and whitespace
runs around a single `(\d+)` capture", with the character sets of adjacent
tokens disjoint (a whitespace or digit run is always followed by a token
starting with a character outside the run's class), so greedy maximal-munch
matching at each start position is exactly the JS backtracking semantics, and
`String.prototype.match` returns the leftmost match. -/

inductive CTok where
  | lit : String → CTok       -- case-insensitive literal (the regexes carry `i`)
  | wsStar : CTok             -- `\s*`
  | wsPlus : CTok             -- `\s+`
  | colonWsPlus : CTok        -- `[:\s]+`
  | digits : CTok             -- `(\d+)`, the single capture group
deriving Repr, DecidableEq

def ciEq (a b : Char) : Bool := a.toLower = b.toLower

def ciLitMatch : List Char → List Char → Option (List Char)
  | [], l => some l
  | _ :: _, [] => none
  | p :: ps, c :: t => if ciEq p c then ciLitMatch ps t else none

def isColonWs (c : Char) : Bool := c = ':' || isSpaceChar c

def digitsToNat (ds : List Char) : Nat :=
  ds.foldl (fun acc c => acc * 10 + (c.toNat - 48)) 0

/-- Match a token sequence at the current position, returning the value of the
`(\d+)` capture on success. -/
def matchToksAt : List CTok → List Char → Option Nat → Option Nat
  | [], _, cap => cap
  | .lit s :: ts, l, cap =>
    match ciLitMatch s.data l with
    | some l' => matchToksAt ts l' cap
    | none => none
  | .wsStar :: ts, l, cap => matchToksAt ts (l.dropWhile isSpaceChar) cap
  | .wsPlus :: ts, l, cap =>
    match l with
    | [] => none
    | c :: t => if isSpaceChar c then matchToksAt ts (t.dropWhile isSpaceChar) cap else none
  | .colonWsPlus :: ts, l, cap =>
    match l with
    | [] => none
    | c :: t => if isColonWs c then matchToksAt ts (t.dropWhile isColonWs) cap else none
  | .digits :: ts, l, _cap =>
    let ds := l.takeWhile isDigitChar
    if ds.isEmpty then none
    else matchToksAt ts (l.dropWhile isDigitChar) (some (digitsToNat ds))

def matchToksFrom : List CTok → List Char → Option Nat
  | toks, [] => matchToksAt toks [] none
  | toks, l@(_ :: t) =>
    match matchToksAt toks l none with
    | some n => some n
    | none => matchToksFrom toks t

/-- `text.match(pattern)`, reduced to the captured number of the leftmost
match. -/
def matchLeftmost (toks : List CTok) (s : String) : Option Nat :=
  matchToksFrom toks s.data

/-- `/\*\*Confidence:\s*(\d+)\/100\*\*/i` -/
def confPat1 : List CTok := [.lit "**Confidence:", .wsStar, .digits, .lit "/100**"]
/-- `/Confidence:\s*(\d+)\/100/i` -/
def confPat2 : List CTok := [.lit "Confidence:", .wsStar, .digits, .lit "/100"]
/-- `/confidence:\s*(\d+)%/i` -/
def confPat3 : List CTok := [.lit "confidence:", .wsStar, .digits, .lit "%"]
/-- `/confidence\s+score[:\s]+(\d+)/i` -/
def confPat4 : List CTok := [.lit "confidence", .wsPlus, .lit "score", .colonWsPlus, .digits]
/-- `/(\d+)\/100\s*confidence/i` -/
def confPat5 : List CTok := [.digits, .lit "/100", .wsStar, .lit "confidence"]

def confPatterns : List (List CTok) := [confPat1, confPat2, confPat3, confPat4, confPat5]

/-- The pattern loop of `extractConfidence`: take the first pattern in order
whose leftmost match carries a number inside `[0,100]`; a match whose number
is out of range is skipped (the loop moves on to the next pattern). -/
def scoreLoop : List (List CTok) → String → Option Nat
  | [], _ => none
  | p :: ps, s =>
    match matchLeftmost p s with
    | some n => if n ≤ 100 then some n else scoreLoop ps s
    | none => scoreLoop ps s

/-- ``/```[\s\S]*```/``: two occurrences of three backticks, the second
starting at or after the end of the first. -/
def hasCodeBlocks (s : String) : Bool :=
  match findLit ("```".data) s.data with
  | some rest => (findLit ("```".data) rest).isSome
  | none => false

def lineStartsAux : List Char → List (List Char)
  | [] => []
  | c :: t => (if c = '\n' then [t] else []) ++ lineStartsAux t

/-- The suffixes of the text that start a line (for the `m` flag's `^`). -/
def lineStarts (l : List Char) : List (List Char) := l :: lineStartsAux l

/-- `/^[\s]*[-*•]\s/m`: at some line start, optional whitespace, a bullet
character, then a whitespace character. -/
def hasBulletPoints (s : String) : Bool :=
  (lineStarts s.data).any fun l =>
    match l.dropWhile isSpaceChar with
    | b :: c :: _ => (b = '-' || b = '*' || b = '•') && isSpaceChar c
    | _ => false

/-- `result.split(/\s+/).length`: one more than the number of maximal
whitespace runs (JS `split` keeps the empty pieces at either end). -/
def wsRunCount : Bool → List Char → Nat
  | _, [] => 0
  | prevWs, c :: t =>
    (if isSpaceChar c && !prevWs then 1 else 0) + wsRunCount (isSpaceChar c) t

def wordCount (s : String) : Nat := wsRunCount false s.data + 1

/-- The heuristic fallback of `extractConfidence`. -/
def heuristicConfidence (result : String) : Nat :=
  min (60 + (if hasCodeBlocks result then 10 else 0)
          + (if hasBulletPoints result then 5 else 0)
          + (if 200 < wordCount result then 10 else 0)
          + (if 500 < wordCount result then 5 else 0))
    85

/-- `MultiModelService.extractConfidence`. -/
def extractConfidence (result : String) : Nat :=
  match scoreLoop confPatterns result with
  | some n => n
  | none => heuristicConfidence result

/-! ## Cache key (cache service: `hashCode`, `generateCacheKey`)

`hashCode` UTF-8-encodes the code (`TextEncoder`), digests it with the
platform's `crypto.subtle.digest('SHA-256', …)`, and hex-encodes the digest
bytes.  The digest is reproduced here as a faithful pure FIPS 180-4 SHA-256
over naturals: 32-bit words are naturals reduced modulo `2^32 = 4294967296`;
the state is returned as eight words so that its type is visibly finite. -/

def utf8Char (c : Char) : List Nat :=
  let n := c.toNat
  if n < 128 then [n]
  else if n < 2048 then [192 + n / 64, 128 + n % 64]
  else if n < 65536 then [224 + n / 4096, 128 + n / 64 % 64, 128 + n % 64]
  else [240 + n / 262144, 128 + n / 4096 % 64, 128 + n / 64 % 64, 128 + n % 64]

def utf8Bytes (s : String) : List Nat := s.data.flatMap utf8Char

def w32 (n : Nat) : Nat := n % 4294967296

def rotr32 (x n : Nat) : Nat := w32 ((x >>> n) ||| (x <<< (32 - n)))

def ch32 (x y z : Nat) : Nat := (x &&& y) ^^^ ((x ^^^ 4294967295) &&& z)

def maj32 (x y z : Nat) : Nat := (x &&& y) ^^^ (x &&& z) ^^^ (y &&& z)

def bigSigma0 (x : Nat) : Nat := rotr32 x 2 ^^^ rotr32 x 13 ^^^ rotr32 x 22

def bigSigma1 (x : Nat) : Nat := rotr32 x 6 ^^^ rotr32 x 11 ^^^ rotr32 x 25

def smallSigma0 (x : Nat) : Nat := rotr32 x 7 ^^^ rotr32 x 18 ^^^ (x >>> 3)

def smallSigma1 (x : Nat) : Nat := rotr32 x 17 ^^^ rotr32 x 19 ^^^ (x >>> 10)

/-- The FIPS 180-4 §4.2.2 round constants. -/
def shaK : List Nat :=
  [1116352408, 1899447441, 3049323471, 3921009573, 961987163,
   1508970993, 2453635748, 2870763221, 3624381080, 310598401,
   607225278, 1426881987, 1925078388, 2162078206, 2614888103,
   3248222580, 3835390401, 4022224774, 264347078, 604807628,
   770255983, 1249150122, 1555081692, 1996064986, 2554220882,
   2821834349, 2952996808, 3210313671, 3336571891, 3584528711,
   113926993, 338241895, 666307205, 773529912, 1294757372,
   1396182291, 1695183700, 1986661051, 2177026350, 2456956037,
   2730485921, 2820302411, 3259730800, 3345764771, 3516065817,
   3600352804, 4094571909, 275423344, 430227734, 506948616,
   659060556, 883997877, 958139571, 1322822218, 1537002063,
   1747873779, 1955562222, 2024104815, 2227730452, 2361852424,
   2428436474, 2756734187, 3204031479, 3329325298]

/-- The FIPS 180-4 §5.3.3 initial hash value. -/
def shaIV : List Nat :=
  [1779033703, 3144134277, 1013904242, 2773480762,
   1359893119, 2600822924, 528734635, 1541459225]

/-- §5.1.1 padding: `0x80`, zeros to 56 mod 64, then the 64-bit big-endian
bit length. -/
def padBytes (msg : List Nat) : List Nat :=
  let len := msg.length
  let zeros := (56 + 64 - (len + 1) % 64) % 64
  let bitLen := len * 8
  msg ++ 128 :: (List.replicate zeros 0
    ++ (List.range 8).map fun i => (bitLen >>> (8 * (7 - i))) % 256)

def beWord (b0 b1 b2 b3 : Nat) : Nat := ((b0 * 256 + b1) * 256 + b2) * 256 + b3

/-- The sixteen big-endian message words of one 64-byte block. -/
def blockWords : List Nat → List Nat
  | b0 :: b1 :: b2 :: b3 :: rest => beWord b0 b1 b2 b3 :: blockWords rest
  | _ => []

/-- §6.2.2 step 1: extend sixteen words to the 64-entry message schedule. -/
def extendSchedule (w16 : List Nat) : List Nat :=
  (List.range 48).foldl
    (fun w _ =>
      let t := w.length
      w ++ [w32 (smallSigma1 (w.getD (t - 2) 0) + w.getD (t - 7) 0
        + smallSigma0 (w.getD (t - 15) 0) + w.getD (t - 16) 0)])
    w16

abbrev ShaState := Nat × Nat × Nat × Nat × Nat × Nat × Nat × Nat

/-- §6.2.2 step 3: one round of the compression function. -/
def roundStep : ShaState → Nat × Nat → ShaState
  | (a, b, c, d, e, f, g, h), (kt, wt) =>
    let t1 := w32 (h + bigSigma1 e + ch32 e f g + kt + wt)
    let t2 := w32 (bigSigma0 a + maj32 a b c)
    (w32 (t1 + t2), a, b, c, w32 (d + t1), e, f, g)

/-- §6.2.2: process one 64-byte block. -/
def compressBlock (h : List Nat) (block : List Nat) : List Nat :=
  let w := extendSchedule (blockWords block)
  let init : ShaState :=
    (h.getD 0 0, h.getD 1 0, h.getD 2 0, h.getD 3 0,
     h.getD 4 0, h.getD 5 0, h.getD 6 0, h.getD 7 0)
  match (shaK.zip w).foldl roundStep init with
  | (a, b, c, d, e, f, g, hh) =>
    [w32 (h.getD 0 0 + a), w32 (h.getD 1 0 + b), w32 (h.getD 2 0 + c),
     w32 (h.getD 3 0 + d), w32 (h.getD 4 0 + e), w32 (h.getD 5 0 + f),
     w32 (h.getD 6 0 + g), w32 (h.getD 7 0 + hh)]

/-- Fold the compression function over the 64-byte blocks (the fuel is an
upper bound on the number of blocks; the padded message consumes 64 bytes per
step). -/
def shaBlocksGo : Nat → List Nat → List Nat → List Nat
  | 0, h, _ => h
  | fuel + 1, h, bytes =>
    match bytes with
    | [] => h
    | _ :: _ => shaBlocksGo fuel (compressBlock h (bytes.take 64)) (bytes.drop 64)

/-- SHA-256 of a byte sequence, as its eight final 32-bit state words.  The
codomain `Fin 8 → Fin 4294967296` is a finite type: the digest can only take
finitely many values. -/
def sha256Words (msg : List Nat) : Fin 8 → Fin 4294967296 :=
  let padded := padBytes msg
  let out := shaBlocksGo padded.length shaIV padded
  fun i => ⟨w32 (out.getD i.val 0), Nat.mod_lt _ (by norm_num)⟩

def hexDigitChar (n : Nat) : Char :=
  if n < 10 then Char.ofNat (48 + n) else Char.ofNat (87 + n)

/-- `b.toString(16).padStart(2, '0')` for a byte. -/
def byteHex (b : Nat) : String := ⟨[hexDigitChar (b / 16 % 16), hexDigitChar (b % 16)]⟩

/-- Four big-endian digest bytes of one state word, in hex. -/
def wordHexBE (w : Nat) : String :=
  byteHex (w / 16777216 % 256) ++ byteHex (w / 65536 % 256)
    ++ byteHex (w / 256 % 256) ++ byteHex (w % 256)

/-- `hashCode`: the lowercase-hex SHA-256 of the UTF-8 encoded code. -/
def hashCode (code : String) : String :=
  let ws := sha256Words (utf8Bytes code)
  String.join (((List.finRange 8).map fun i => wordHexBE (ws i).val))

/-- `CacheService.generateCacheKey`. -/
def generateCacheKey (code category language model : String) : String :=
  "review:" ++ hashCode code ++ ":" ++ category ++ ":" ++ language ++ ":" ++ model

/-- Modelled from the claim's words (which follow the spec's "clamped to
[0,100]"): the first pattern in priority order that matches at all wins, and
its captured number is clamped into `[0,100]`.  This is the behaviour the
claim asserts, to be compared against `extractConfidence` above, which instead
skips an out-of-range match. -/
def firstMatchAny : List (List CTok) → String → Option Nat
  | [], _ => none
  | p :: ps, s =>
    match matchLeftmost p s with
    | some n => some n
    | none => firstMatchAny ps s

/-- Modelled from the claim's words; see `firstMatchAny`. -/
def extractConfidenceClamped (result : String) : Nat :=
  match firstMatchAny confPatterns result with
  | some n => min n 100
  | none => heuristicConfidence result

/-! ## Helper lemmas -/

theorem strData_append (s t : String) : (s ++ t).data = s.data ++ t.data := by
  cases s; cases t; rfl

theorem strMk_append (a b : List Char) : String.mk a ++ String.mk b = String.mk (a ++ b) := rfl

theorem strLength_mk (l : List Char) : (String.mk l).length = l.length := rfl

theorem strLength_append (s t : String) : (s ++ t).length = s.length + t.length := by
  cases s with
  | mk a =>
    cases t with
    | mk b => simp [strMk_append, strLength_mk]

theorem jsSlice_length (s : String) (n : Nat) : (jsSlice s n).length = min n s.length := by
  cases s with
  | mk l => simp [jsSlice, strLength_mk, List.length_take]

theorem heuristicConfidence_bounds (s : String) :
    60 ≤ heuristicConfidence s ∧ heuristicConfidence s ≤ 85 := by
  unfold heuristicConfidence
  split_ifs <;> omega

theorem scoreLoop_le_100 (ps : List (List CTok)) (s : String) (n : Nat) :
    scoreLoop ps s = some n → n ≤ 100 := by
  induction ps with
  | nil => intro h; simp [scoreLoop] at h
  | cons p ps ih =>
    intro h
    unfold scoreLoop at h
    split at h
    · split at h
      · cases h; assumption
      · exact ih h
    · exact ih h

theorem scoreLoop_eq_none (ps : List (List CTok)) (s : String)
    (h : ∀ p ∈ ps, matchLeftmost p s = none) : scoreLoop ps s = none := by
  induction ps with
  | nil => rfl
  | cons p ps ih =>
    unfold scoreLoop
    rw [h p (by simp)]
    exact ih fun q hq => h q (by simp [hq])

/-! ### Extending a regex match by appended text

A match that leaves a nonempty remainder is insensitive to text appended
after the input: every decision the matcher took (literal characters,
classes, word boundaries) looked only at consumed characters and at the head
of a nonempty remainder, and the end anchor can never have fired.  These
lemmas let a match found inside a short seed prefix be transported to the
seed followed by arbitrary filler, so that validation of a long input can be
established without scanning the filler. -/

theorem matchFrom_nil_rest (r : RE) (prev p' : Option Char) (rest : List Char)
    (h : (p', rest) ∈ matchFrom r prev []) : rest = [] := by
  induction r generalizing prev p' rest with
  | lit s =>
    unfold matchFrom at h
    rcases hs : s.data with _ | ⟨c, cs⟩
    · rw [hs] at h
      simp [litMatch] at h
      exact h.2
    · rw [hs] at h
      simp [litMatch] at h
  | cls k => simp [matchFrom] at h
  | seq a b iha ihb =>
    unfold matchFrom at h
    rw [List.mem_flatMap] at h
    obtain ⟨mid, hmid, hb⟩ := h
    have h2 : mid.2 = [] := iha _ _ _ hmid
    rw [h2] at hb
    exact ihb _ _ _ hb
  | alt a b iha ihb =>
    unfold matchFrom at h
    rcases List.mem_append.mp h with h | h
    · exact iha _ _ _ h
    · exact ihb _ _ _ h
  | starC k => simp [matchFrom, starSplits] at h; exact h.2
  | plusC k => simp [matchFrom] at h
  | wb =>
    unfold matchFrom at h
    split at h
    · simp at h; exact h.2
    · simp at h
  | eos => simp [matchFrom] at h; exact h.2

theorem litMatch_append (s : List Char) (prev : Option Char) (l m : List Char)
    (p' : Option Char) (rest : List Char)
    (h : (p', rest) ∈ litMatch s prev l) :
    (p', rest ++ m) ∈ litMatch s prev (l ++ m) := by
  induction s generalizing prev l with
  | nil =>
    simp [litMatch] at h ⊢
    exact ⟨h.1, by rw [h.2]⟩
  | cons c cs ih =>
    cases l with
    | nil => simp [litMatch] at h
    | cons d t =>
      unfold litMatch at h
      split at h
      · next hc =>
        show (p', rest ++ m) ∈ litMatch (c :: cs) prev (d :: (t ++ m))
        unfold litMatch
        rw [if_pos hc]
        exact ih _ _ h
      · exact absurd h (List.not_mem_nil _)

theorem starSplits_append (p : Char → Bool) (prev : Option Char) (l m : List Char)
    (p' : Option Char) (rest : List Char)
    (h : (p', rest) ∈ starSplits p prev l) :
    (p', rest ++ m) ∈ starSplits p prev (l ++ m) := by
  induction l generalizing prev with
  | nil =>
    simp [starSplits] at h
    obtain ⟨rfl, rfl⟩ := h
    cases m with
    | nil => simp [starSplits]
    | cons c t => simp [starSplits]
  | cons c t ih =>
    unfold starSplits at h
    rcases List.mem_cons.mp h with he | htail
    · obtain ⟨rfl, rfl⟩ := Prod.mk.injEq .. ▸ he
      show (p', (c :: t) ++ m) ∈ starSplits p p' (c :: (t ++ m))
      unfold starSplits
      simp
    · split at htail
      · next hp =>
        show (p', rest ++ m) ∈ starSplits p prev (c :: (t ++ m))
        unfold starSplits
        rw [if_pos hp]
        exact List.mem_cons_of_mem _ (ih _ htail)
      · exact absurd htail (List.not_mem_nil _)

theorem wordBoundary_append (prev : Option Char) (l m : List Char) (h : l ≠ []) :
    wordBoundary prev (l ++ m) = wordBoundary prev l := by
  cases l with
  | nil => exact absurd rfl h
  | cons c t => rfl

theorem matchFrom_append (r : RE) (prev : Option Char) (l m : List Char)
    (p' : Option Char) (rest : List Char)
    (h : (p', rest) ∈ matchFrom r prev l) (hne : rest ≠ []) :
    (p', rest ++ m) ∈ matchFrom r prev (l ++ m) := by
  induction r generalizing prev l p' rest with
  | lit s => exact litMatch_append _ _ _ _ _ _ h
  | cls k =>
    cases l with
    | nil => simp [matchFrom] at h
    | cons c t =>
      simp only [matchFrom] at h
      split at h
      · next hk =>
        simp at h
        show (p', rest ++ m) ∈ matchFrom (.cls k) prev (c :: (t ++ m))
        simp [matchFrom, hk, h.1, h.2]
      · simp at h
  | seq a b iha ihb =>
    unfold matchFrom at h ⊢
    rw [List.mem_flatMap] at h ⊢
    obtain ⟨mid, hmid, hb⟩ := h
    have hmidne : mid.2 ≠ [] := by
      intro hmid2
      rw [hmid2] at hb
      exact hne (matchFrom_nil_rest b _ _ _ hb)
    exact ⟨(mid.1, mid.2 ++ m), iha _ _ _ _ hmid hmidne, ihb _ _ _ _ hb hne⟩
  | alt a b iha ihb =>
    unfold matchFrom at h ⊢
    rcases List.mem_append.mp h with h | h
    · exact List.mem_append.mpr (Or.inl (iha _ _ _ _ h hne))
    · exact List.mem_append.mpr (Or.inr (ihb _ _ _ _ h hne))
  | starC k => exact starSplits_append _ _ _ _ _ _ h
  | plusC k =>
    cases l with
    | nil => simp [matchFrom] at h
    | cons c t =>
      simp only [matchFrom] at h
      split at h
      · next hk =>
        show (p', rest ++ m) ∈ matchFrom (.plusC k) prev (c :: (t ++ m))
        simp only [matchFrom]
        rw [if_pos hk]
        exact starSplits_append _ _ _ _ _ _ h
      · simp at h
  | wb =>
    unfold matchFrom at h
    split at h
    · next hw =>
      simp at h
      obtain ⟨rfl, rfl⟩ := h
      unfold matchFrom
      rw [wordBoundary_append _ _ _ hne, if_pos hw]
      simp
    · simp at h
  | eos =>
    unfold matchFrom at h
    split at h
    · simp at h
      exact absurd h.2 hne
    · simp at h

theorem startPositions_append (prev p : Option Char) (l s m : List Char)
    (h : (p, s) ∈ startPositions prev l) :
    (p, s ++ m) ∈ startPositions prev (l ++ m) := by
  induction l generalizing prev with
  | nil =>
    simp [startPositions] at h
    obtain ⟨rfl, rfl⟩ := h
    cases m with
    | nil => simp [startPositions]
    | cons c t => simp [startPositions]
  | cons c t ih =>
    unfold startPositions at h
    rcases List.mem_cons.mp h with he | htail
    · obtain ⟨rfl, rfl⟩ := Prod.mk.injEq .. ▸ he
      show (p, (c :: t) ++ m) ∈ startPositions p (c :: (t ++ m))
      unfold startPositions
      simp
    · show (p, s ++ m) ∈ startPositions prev (c :: (t ++ m))
      unfold startPositions
      exact List.mem_cons_of_mem _ (ih _ htail)

/-- `reTest`, strengthened to ask for a match whose remainder is nonempty.
Deciding it on a short seed prefix is cheap; `reTest_of_seed` transports the
result to the prefix followed by arbitrary filler. -/
def reTestSeed (r : RE) (s : String) : Bool :=
  (startPositions none s.data).any fun pr =>
    (matchFrom r pr.1 pr.2).any fun q => !q.2.isEmpty

theorem reTest_of_seed (r : RE) (p : String) (m : List Char)
    (h : reTestSeed r p = true) : reTest r ⟨p.data ++ m⟩ = true := by
  unfold reTestSeed at h
  unfold reTest
  rw [List.any_eq_true] at h ⊢
  obtain ⟨pr, hpr, hq⟩ := h
  rw [List.any_eq_true] at hq
  obtain ⟨q, hqmem, hqne⟩ := hq
  have hrest : q.2 ≠ [] := by
    intro hq2
    rw [hq2] at hqne
    simp at hqne
  refine ⟨(pr.1, pr.2 ++ m), startPositions_append _ _ _ _ _ hpr, ?_⟩
  have hmem : (q.1, q.2 ++ m) ∈ matchFrom r pr.1 (pr.2 ++ m) :=
    matchFrom_append r pr.1 pr.2 m q.1 q.2 hqmem hrest
  simp only [Bool.not_eq_true']
  exact List.isEmpty_eq_false.mpr (List.ne_nil_of_mem hmem)

theorem patternHit_of_seed (r : RE) (p : String) (m : List Char)
    (h : reTestSeed r p = true) : patternHit r ⟨p.data ++ m⟩ = true := by
  unfold patternHit
  rw [Bool.or_eq_true]
  exact Or.inr (reTest_of_seed r p m h)

/-- If a predicate holds on the first two entries of a list, its filter keeps
at least two entries. -/
theorem two_le_filter_first_two {p : RE → Bool} {r1 r2 : RE} {rest : List RE}
    (h1 : p r1 = true) (h2 : p r2 = true) :
    2 ≤ ((r1 :: r2 :: rest).filter p).length := by
  simp [List.filter, h1, h2]

/-- A short snippet in which the first two detection patterns of every
supported language match (each match ending before the trailing space).  Any
string of the form `seedCode ++ filler` is therefore detected as all eight
languages, whatever the filler — which lets long code inputs pass language
validation without running the scanner over the filler. -/
def seedCode : String :=
  "const await interface def self int make fn unwrap class endl using x: void "

theorem detectLanguage_seeded (m : List Char) :
    detectLanguage ⟨seedCode.data ++ m⟩
      = ["javascript", "typescript", "python", "java", "go", "rust", "cpp", "csharp"] := by
  unfold detectLanguage
  rw [List.filter_eq_self.mpr ?_]
  · rfl
  · intro lp hlp
    simp only [LANGUAGE_PATTERNS, List.mem_cons, List.not_mem_nil, or_false] at hlp
    rcases hlp with rfl | rfl | rfl | rfl | rfl | rfl | rfl | rfl <;>
      exact decide_eq_true (two_le_filter_first_two
        (patternHit_of_seed _ _ _ (by decide)) (patternHit_of_seed _ _ _ (by decide)))

theorem validateLanguage_seeded (m : List Char) :
    validateLanguage ⟨seedCode.data ++ m⟩ "javascript"
      = { isValid := true,
          detectedLanguages := ["javascript", "typescript", "python", "java",
            "go", "rust", "cpp", "csharp"] } := by
  unfold validateLanguage
  rw [detectLanguage_seeded]
  rfl

/-- The language-detection note prepended when all eight languages are
candidates. -/
def seededNote : String :=
  "\n\n**Language Detection:** Code appears to be javascript or typescript or python or java or go or rust or cpp or csharp.\n\n"

theorem performReviewParts_seeded (m : List Char) :
    performReviewParts (.ok (.str "fine"))
        ⟨⟨seedCode.data ++ m⟩, "quick", some "javascript"⟩
      = .ok (seededNote ++ "fine", "fine") := by
  unfold performReviewParts
  dsimp only
  rw [show jsOr (some "javascript") "javascript" = "javascript" from rfl,
    validateLanguage_seeded]
  rfl

theorem seeded_length (k : Nat) :
    (⟨seedCode.data ++ List.replicate k 'a'⟩ : String).length = 75 + k := by
  rw [strLength_mk, List.length_append, List.length_replicate,
    show seedCode.data.length = 75 from rfl]

/-! ## Claim theorems -/

/-- C4, counterexample.  The claim "confidence extraction applied to ANY text
containing `**Confidence: 73/100**` returns exactly 73" fails: in this text
the leftmost match of the top-priority pattern is `**Confidence: 50/100**`,
and the extraction returns 50, not 73, even though the text contains
`**Confidence: 73/100**`. -/
theorem confidence_73_preempted_cex :
    containsStr "**Confidence: 50/100** and **Confidence: 73/100**" "**Confidence: 73/100**" = true
      ∧ extractConfidence "**Confidence: 50/100** and **Confidence: 73/100**" = 50
      ∧ (50 : Nat) ≠ 73 := by
  decide

/-- C4, amended: if the leftmost match of the top-priority pattern
`**Confidence: NN/100**` carries the number 73, extraction returns exactly 73
(in particular this holds when `**Confidence: 73/100**` is the only score
occurrence in the text); and on a text in which no explicit-score pattern
matches at all, extraction returns a value in [60,85] (and it is
deterministic: `extractConfidence` is a pure function of the text). -/
theorem confidence_extraction_amended (text : String) :
    (matchLeftmost confPat1 text = some 73 → extractConfidence text = 73)
      ∧ ((∀ p ∈ confPatterns, matchLeftmost p text = none) →
          60 ≤ extractConfidence text ∧ extractConfidence text ≤ 85) := by
  constructor
  · intro h
    simp [extractConfidence, confPatterns, scoreLoop, h]
  · intro h
    have hn : scoreLoop confPatterns text = none := scoreLoop_eq_none _ _ h
    simp only [extractConfidence, hn]
    exact heuristicConfidence_bounds text

theorem confidence_extraction_amended_witness :
    extractConfidence "**Confidence: 73/100**" = 73
      ∧ (60 ≤ extractConfidence "just plain prose"
          ∧ extractConfidence "just plain prose" ≤ 85) :=
  ⟨(confidence_extraction_amended "**Confidence: 73/100**").1 (by decide),
   (confidence_extraction_amended "just plain prose").2 (by decide)⟩

/-- C5, counterexample.  The claim says the number of the first matching
pattern is clamped to [0,100], so `confidence: 150%` would yield 100 (the
clamped value of its first — and only — match); the code instead skips the
out-of-range match and falls back to the length heuristic, returning 60. -/
theorem confidence_out_of_range_not_clamped_cex :
    extractConfidence "confidence: 150%" = 60
      ∧ extractConfidenceClamped "confidence: 150%" = 100
      ∧ (60 : Nat) ≠ 100 := by
  decide

/-- C5, amended: the patterns are tried in a fixed priority order and the
first match whose captured number lies inside [0,100] wins, returned
unchanged; a match whose number is outside [0,100] is skipped in favour of
later patterns or the heuristic (rather than clamped), so the extracted value
never exceeds 100. -/
theorem confidence_priority_order (text : String) :
    extractConfidence text ≤ 100
      ∧ (∀ n, scoreLoop confPatterns text = some n →
          extractConfidence text = n ∧ n ≤ 100) := by
  constructor
  · unfold extractConfidence
    cases h : scoreLoop confPatterns text with
    | none => exact le_trans (heuristicConfidence_bounds text).2 (by norm_num)
    | some n => exact scoreLoop_le_100 _ _ _ h
  · intro n h
    exact ⟨by simp [extractConfidence, h], scoreLoop_le_100 _ _ _ h⟩

theorem confidence_priority_order_witness :
    extractConfidence "Confidence: 88/100" = 88 ∧ (88 : Nat) ≤ 100 :=
  (confidence_priority_order "Confidence: 88/100").2 88 (by decide)

/-- C2, counterexample.  For the code `def foo(): pass` with claimed language
`javascript`, the pipeline does NOT reject: only one python pattern matches
(`\b(def|…)\b`) while detection requires at least two, so no language is
detected, validation passes (with a generic note), the model is invoked, and
the result mentions no "python" candidate. -/
theorem python_snippet_not_rejected_cex :
    (validateLanguage "def foo(): pass" "javascript").isValid = true
      ∧ performReview (.ok (.str "fine")) ⟨"def foo(): pass", "quick", some "javascript"⟩
        = .ok "\n\n**Language Detection Note:** Could not detect specific language. Proceeding with generic code review.\n\nfine"
      ∧ containsStr "\n\n**Language Detection Note:** Could not detect specific language. Proceeding with generic code review.\n\nfine" "python" = false := by
  decide

/-- C2, amended: for `def foo(): pass` with claimed language `javascript`, no
language is detected (python's detector needs two matching patterns and only
one matches), validation passes with the could-not-detect note, and the model
IS invoked — a model failure surfaces as the review's failure, and a model
success yields the result annotated with the generic-review note (no "python"
rejection occurs). -/
theorem python_snippet_generic_review :
    detectLanguage "def foo(): pass" = []
      ∧ (validateLanguage "def foo(): pass" "javascript").isValid = true
      ∧ (validateLanguage "def foo(): pass" "javascript").suggestion
        = some "Could not detect specific language. Proceeding with generic code review."
      ∧ (∀ e : String,
          performReviewParts (.error e) ⟨"def foo(): pass", "quick", some "javascript"⟩
            = .error ("AI review failed: " ++ e))
      ∧ performReview (.ok (.str "fine")) ⟨"def foo(): pass", "quick", some "javascript"⟩
        = .ok "\n\n**Language Detection Note:** Could not detect specific language. Proceeding with generic code review.\n\nfine" :=
  ⟨by decide, by decide, by decide, fun _ => rfl, by decide⟩

theorem python_snippet_generic_review_witness :
    performReviewParts (.error "model down") ⟨"def foo(): pass", "quick", some "javascript"⟩
      = .error "AI review failed: model down" :=
  python_snippet_generic_review.2.2.2.1 "model down"

/-- The assistant turn appended by `handleCodeReview`, as a function of the
pipeline outcome (none on failure). -/
def assistantTurnsOf (res : Except String (String × String)) (now : Nat) : List HistoryEntry :=
  match res with
  | .ok (fullResponse, _) => [⟨"assistant", jsSlice fullResponse 500, now⟩]
  | .error _ => []

theorem handleCodeReview_history (st : ReviewState) (data : CodeReviewRequest)
    (air : Except String AIResponse) (id : String) (now : Nat) :
    (handleCodeReview st data air id now).1.history
      = st.history ++ userEntryOf data now :: assistantTurnsOf (performReviewParts air data) now := by
  unfold handleCodeReview
  cases h : performReviewParts air data with
  | ok pr => cases pr with
    | mk full raw => simp [assistantTurnsOf]
  | error e => simp [assistantTurnsOf]

/-- The review appended by `handleCodeReview`, as a function of the pipeline
outcome (none on failure). -/
def reviewsOf (res : Except String (String × String)) (data : CodeReviewRequest)
    (reviewId : String) (now : Nat) : List Review :=
  match res with
  | .ok (fullResponse, _) =>
    [{ id := reviewId, code := jsSlice data.code 2000, category := data.category,
       result := fullResponse, timestamp := now }]
  | .error _ => []

theorem handleCodeReview_reviews (st : ReviewState) (data : CodeReviewRequest)
    (air : Except String AIResponse) (id : String) (now : Nat) :
    (handleCodeReview st data air id now).1.reviews
      = st.reviews ++ reviewsOf (performReviewParts air data) data id now := by
  unfold handleCodeReview
  cases h : performReviewParts air data with
  | ok pr => cases pr with
    | mk full raw => simp [reviewsOf]
  | error e => simp [reviewsOf]

theorem handleTestReview_review_of_ok (air : Except String AIResponse) (code : String)
    (category language : Option String) (id : String) (now : Nat) (pr : String × String)
    (h : performReviewParts air
        ⟨code, category.getD "quick", some (language.getD "javascript")⟩ = .ok pr) :
    (handleTestReview air code category language id now).review
      = some ⟨id, jsSlice code 2000, category.getD "quick",
          language.getD "javascript", pr.2, now⟩ := by
  cases pr with
  | mk a b =>
    unfold handleTestReview
    rw [h]

theorem userEntry_content_length (data : CodeReviewRequest) (now : Nat) :
    (userEntryOf data now).content.length
      = 29 + (jsOr data.language "code").length + data.category.length
          + min 500 data.code.length := by
  simp only [userEntryOf, strLength_append, jsSlice_length]
  have h1 : ("Review this " : String).length = 12 := rfl
  have h2 : (" (" : String).length = 2 := rfl
  have h3 : (" analysis):\n" : String).length = 12 := rfl
  have h4 : ("..." : String).length = 3 := rfl
  omega

/-- C1, counterexample.  A valid request (`code = "x"`, category `quick`)
whose model call throws `boom`: the pipeline fails, yet the session history is
no longer equal to its value from before the call (the user turn was pushed
before the model was invoked). -/
theorem history_mutated_on_model_failure_cex :
    performReviewParts (.error "boom") ⟨"x", "quick", some "javascript"⟩
      = .error "AI review failed: boom"
      ∧ (handleCodeReview ⟨[], []⟩ ⟨"x", "quick", some "javascript"⟩
          (.error "boom") "id" 0).1.history ≠ ([] : List HistoryEntry) := by
  refine ⟨by decide, ?_⟩
  rw [handleCodeReview_history]
  simp

/-- C1, amended: the reviews list is not mutated until the model call
succeeds — on any pipeline failure it equals its value from before the call —
but the history list receives the user turn before the model call, so on
failure it equals the pre-call history with exactly that one user entry
appended. -/
theorem review_state_on_pipeline_failure (st : ReviewState) (data : CodeReviewRequest)
    (air : Except String AIResponse) (id : String) (now : Nat) (e : String)
    (h : performReviewParts air data = .error e) :
    (handleCodeReview st data air id now).1.reviews = st.reviews
      ∧ (handleCodeReview st data air id now).1.history
        = st.history ++ [userEntryOf data now] := by
  unfold handleCodeReview
  rw [h]
  simp

theorem review_state_on_pipeline_failure_witness :
    (handleCodeReview ⟨[], []⟩ ⟨"x", "quick", some "javascript"⟩
        (.error "boom") "id" 0).1.reviews = []
      ∧ (handleCodeReview ⟨[], []⟩ ⟨"x", "quick", some "javascript"⟩
          (.error "boom") "id" 0).1.history
        = [userEntryOf ⟨"x", "quick", some "javascript"⟩ 0] := by
  have h := review_state_on_pipeline_failure ⟨[], []⟩ ⟨"x", "quick", some "javascript"⟩
    (.error "boom") "id" 0 "AI review failed: boom" (by decide)
  simpa using h

/-- C7: for a submitted code string of 5000 characters, every review this
submission stores — on the socket path and on the HTTP test path — has a
`code` field of exactly 2000 characters. -/
theorem stored_review_code_truncated (st : ReviewState) (data : CodeReviewRequest)
    (air : Except String AIResponse) (id : String) (now : Nat)
    (category' language' : Option String)
    (hlen : data.code.length = 5000) :
    (((handleCodeReview st data air id now).1.reviews.drop st.reviews.length).all
        fun r => r.code.length = 2000) = true
      ∧ (∀ r, (handleTestReview air data.code category' language' id now).review = some r →
          r.code.length = 2000) := by
  constructor
  · unfold handleCodeReview
    cases h : performReviewParts air data with
    | ok pr =>
      cases pr with
      | mk full raw =>
        simp [List.drop_left, List.all_cons, jsSlice_length, hlen]
    | error e => simp [List.drop_length]
  · intro r hr
    unfold handleTestReview at hr
    cases h : performReviewParts air
        ⟨data.code, category'.getD "quick", some (language'.getD "javascript")⟩ with
    | ok pr =>
      cases pr with
      | mk full raw =>
        rw [h] at hr
        simp only [Option.some.injEq] at hr
        subst hr
        simp [jsSlice_length, hlen]
    | error e =>
      rw [h] at hr
      simp at hr

theorem stored_review_code_truncated_witness :
    ((((handleCodeReview ⟨[], []⟩
          ⟨⟨seedCode.data ++ List.replicate 4925 'a'⟩, "quick", some "javascript"⟩
          (.ok (.str "fine")) "id" 0).1.reviews.drop 0).all
        fun r => r.code.length = 2000) = true)
      ∧ (∀ r, (handleTestReview (.ok (.str "fine")) ⟨seedCode.data ++ List.replicate 4925 'a'⟩
            none none "id" 0).review = some r → r.code.length = 2000)
      ∧ (handleCodeReview ⟨[], []⟩
          ⟨⟨seedCode.data ++ List.replicate 4925 'a'⟩, "quick", some "javascript"⟩
          (.ok (.str "fine")) "id" 0).1.reviews.length = 1
      ∧ (handleTestReview (.ok (.str "fine")) ⟨seedCode.data ++ List.replicate 4925 'a'⟩
          none none "id" 0).review.isSome = true := by
  have hok := performReviewParts_seeded (List.replicate 4925 'a')
  have hlen : (⟨seedCode.data ++ List.replicate 4925 'a'⟩ : String).length = 5000 := by
    rw [seeded_length]
  have h := stored_review_code_truncated ⟨[], []⟩
    ⟨⟨seedCode.data ++ List.replicate 4925 'a'⟩, "quick", some "javascript"⟩
    (.ok (.str "fine")) "id" 0 none none hlen
  refine ⟨h.1, h.2, ?_, ?_⟩
  · rw [handleCodeReview_reviews, hok]
    rfl
  · rw [handleTestReview_review_of_ok (.ok (.str "fine"))
      ⟨seedCode.data ++ List.replicate 4925 'a'⟩ none none "id" 0
      (seededNote ++ "fine", "fine") hok]
    rfl

set_option maxRecDepth 8192 in
/-- C8, counterexample.  A submission of a 500-character, validly-detected
javascript snippet against a succeeding model: the review COMPLETES (one
review is stored), yet the user-turn entry appended to the history during it
has content of 544 characters (template prefix + 500-character code preview +
trailing dots), exceeding the claimed 500-character cap. -/
theorem history_preview_overflow_cex :
    (handleCodeReview ⟨[], []⟩
        ⟨⟨seedCode.data ++ List.replicate 425 'a'⟩, "quick", some "javascript"⟩
        (.ok (.str "fine")) "id" 0).1.reviews.length = 1
      ∧ ((handleCodeReview ⟨[], []⟩
          ⟨⟨seedCode.data ++ List.replicate 425 'a'⟩, "quick", some "javascript"⟩
          (.ok (.str "fine")) "id" 0).1.history.head?.map fun h => h.content.length)
        = some 544
      ∧ ¬(544 ≤ 500) := by
  have hok := performReviewParts_seeded (List.replicate 425 'a')
  refine ⟨?_, ?_, by norm_num⟩
  · rw [handleCodeReview_reviews, hok]
    rfl
  · rw [handleCodeReview_history]
    rw [hok]
    show some ((userEntryOf
      ⟨⟨seedCode.data ++ List.replicate 425 'a'⟩, "quick", some "javascript"⟩
      0).content.length) = some 544
    rw [userEntry_content_length]
    decide

/-- C8, amended: the assistant-turn preview appended to the history is capped
at 500 characters, but the user-turn content embeds the first 500 characters
of the code inside a template (prefix naming the language and category, and a
trailing `...`), so its total length is `29 + |language shown| + |category| +
min(500, |code|)`, which can exceed 500. -/
theorem history_preview_amended (st : ReviewState) (data : CodeReviewRequest)
    (air : Except String AIResponse) (id : String) (now : Nat) :
    (handleCodeReview st data air id now).1.history
        = st.history ++ userEntryOf data now :: assistantTurnsOf (performReviewParts air data) now
      ∧ (userEntryOf data now).content.length
        = 29 + (jsOr data.language "code").length + data.category.length
            + min 500 data.code.length
      ∧ (∀ h ∈ assistantTurnsOf (performReviewParts air data) now,
          h.content.length ≤ 500) := by
  refine ⟨handleCodeReview_history st data air id now, userEntry_content_length data now, ?_⟩
  intro h hh
  unfold assistantTurnsOf at hh
  revert hh
  cases performReviewParts air data with
  | ok pr =>
    cases pr with
    | mk full raw =>
      intro hh
      simp only [List.mem_singleton] at hh
      subst hh
      simp [jsSlice_length]
  | error e => intro hh; simp at hh

theorem history_preview_amended_witness :
    (handleCodeReview ⟨[], []⟩ ⟨"x", "quick", some "javascript"⟩ (.ok (.str "fine")) "id" 0).1.history
        = [] ++ userEntryOf ⟨"x", "quick", some "javascript"⟩ 0
            :: assistantTurnsOf
              (performReviewParts (.ok (.str "fine")) ⟨"x", "quick", some "javascript"⟩) 0
      ∧ (userEntryOf ⟨"x", "quick", some "javascript"⟩ 0).content.length
        = 29 + 10 + 5 + min 500 1
      ∧ (∀ h ∈ assistantTurnsOf
            (performReviewParts (.ok (.str "fine")) ⟨"x", "quick", some "javascript"⟩) 0,
          h.content.length ≤ 500) := by
  have h := history_preview_amended ⟨[], []⟩ ⟨"x", "quick", some "javascript"⟩
    (.ok (.str "fine")) "id" 0
  simpa using h

/-! ### Rate limiter -/

theorem kvPut_data_self (kv : KVStore) (key : String) (e : RateLimitEntry) :
    (kvPut kv key e).data key = some e := by
  simp [kvPut]

theorem checkLimit_fresh (kv : KVStore) (identifier : String) (cfg : RateLimitConfig)
    (configName : String) (now : Nat)
    (hg : kv.getThrows = false) (hp : kv.putThrows = false)
    (hd : kv.data (generateKey identifier configName) = none) :
    checkLimit kv identifier cfg configName now
      = ({ allowed := true, remaining := (cfg.maxRequests : Int) - 1,
           resetAt := now + cfg.windowSizeSeconds * 1000 },
         kvPut kv (generateKey identifier configName)
           ⟨1, now, now + cfg.windowSizeSeconds * 1000⟩) := by
  simp [checkLimit, hg, hp, hd]

theorem checkLimit_increment (kv : KVStore) (identifier : String) (cfg : RateLimitConfig)
    (configName : String) (now : Nat) (entry : RateLimitEntry)
    (hg : kv.getThrows = false) (hp : kv.putThrows = false)
    (hd : kv.data (generateKey identifier configName) = some entry)
    (hwin : ¬entry.windowEnd < now) (hc : ¬cfg.maxRequests ≤ entry.count) :
    checkLimit kv identifier cfg configName now
      = ({ allowed := true,
           remaining := (cfg.maxRequests : Int) - ((entry.count + 1 : Nat) : Int),
           resetAt := entry.windowEnd },
         kvPut kv (generateKey identifier configName)
           { entry with count := entry.count + 1 }) := by
  simp [checkLimit, hg, hp, hd, hwin, hc]

theorem checkLimit_deny (kv : KVStore) (identifier : String) (cfg : RateLimitConfig)
    (configName : String) (now : Nat) (entry : RateLimitEntry)
    (hg : kv.getThrows = false)
    (hd : kv.data (generateKey identifier configName) = some entry)
    (hwin : ¬entry.windowEnd < now) (hc : cfg.maxRequests ≤ entry.count) :
    checkLimit kv identifier cfg configName now
      = ({ allowed := false, remaining := 0, resetAt := entry.windowEnd,
           retryAfter := some (ceilDiv1000 (entry.windowEnd - now)) },
         kv) := by
  simp [checkLimit, hg, hd, hwin, hc]

/-- An initially empty backing store with no faults. -/
def kvEmpty : KVStore := ⟨fun _ => none, false, false⟩

/-- The burst policy of the claim: 3 requests per 60-second window. -/
def c3cfg : RateLimitConfig := ⟨3, 60⟩

def c3s1 (t1 : Nat) : RateLimitResult × KVStore :=
  checkLimit kvEmpty "client" c3cfg "custom" t1

def c3s2 (t1 t2 : Nat) : RateLimitResult × KVStore :=
  checkLimit (c3s1 t1).2 "client" c3cfg "custom" t2

def c3s3 (t1 t2 t3 : Nat) : RateLimitResult × KVStore :=
  checkLimit (c3s2 t1 t2).2 "client" c3cfg "custom" t3

def c3s4 (t1 t2 t3 t4 : Nat) : RateLimitResult × KVStore :=
  checkLimit (c3s3 t1 t2 t3).2 "client" c3cfg "custom" t4

/-- C3: with `maxRequests = 3` and `windowSizeSeconds = 60`, four successive
calls from the same identifier inside one 60-second window are allowed,
allowed, allowed, denied, and the denial reports a positive `retryAfter`. -/
theorem rate_limit_three_per_minute (t1 t2 t3 t4 : Nat)
    (h12 : t1 ≤ t2) (h23 : t2 ≤ t3) (h34 : t3 ≤ t4) (hlt : t4 < t1 + 60000) :
    (c3s1 t1).1.allowed = true ∧ (c3s2 t1 t2).1.allowed = true
      ∧ (c3s3 t1 t2 t3).1.allowed = true ∧ (c3s4 t1 t2 t3 t4).1.allowed = false
      ∧ ∃ ra, (c3s4 t1 t2 t3 t4).1.retryAfter = some ra ∧ 0 < ra := by
  have e1 : c3s1 t1
      = ({ allowed := true, remaining := 2, resetAt := t1 + 60000 },
         kvPut kvEmpty (generateKey "client" "custom") ⟨1, t1, t1 + 60000⟩) :=
    checkLimit_fresh kvEmpty "client" c3cfg "custom" t1 rfl rfl rfl
  have e2 : c3s2 t1 t2
      = ({ allowed := true, remaining := 1, resetAt := t1 + 60000 },
         kvPut (kvPut kvEmpty (generateKey "client" "custom") ⟨1, t1, t1 + 60000⟩)
           (generateKey "client" "custom") ⟨2, t1, t1 + 60000⟩) := by
    unfold c3s2
    rw [show (c3s1 t1).2
        = kvPut kvEmpty (generateKey "client" "custom") ⟨1, t1, t1 + 60000⟩ from
      congrArg Prod.snd e1]
    exact checkLimit_increment _ "client" c3cfg "custom" t2 ⟨1, t1, t1 + 60000⟩
      rfl rfl (kvPut_data_self _ _ _) (by show ¬t1 + 60000 < t2; omega)
      (by show ¬c3cfg.maxRequests ≤ 1; decide)
  have e3 : c3s3 t1 t2 t3
      = ({ allowed := true, remaining := 0, resetAt := t1 + 60000 },
         kvPut (kvPut (kvPut kvEmpty (generateKey "client" "custom") ⟨1, t1, t1 + 60000⟩)
             (generateKey "client" "custom") ⟨2, t1, t1 + 60000⟩)
           (generateKey "client" "custom") ⟨3, t1, t1 + 60000⟩) := by
    unfold c3s3
    rw [show (c3s2 t1 t2).2
        = kvPut (kvPut kvEmpty (generateKey "client" "custom") ⟨1, t1, t1 + 60000⟩)
            (generateKey "client" "custom") ⟨2, t1, t1 + 60000⟩ from
      congrArg Prod.snd e2]
    exact checkLimit_increment _ "client" c3cfg "custom" t3 ⟨2, t1, t1 + 60000⟩
      rfl rfl (kvPut_data_self _ _ _) (by show ¬t1 + 60000 < t3; omega)
      (by show ¬c3cfg.maxRequests ≤ 2; decide)
  have e4 : (c3s4 t1 t2 t3 t4).1
      = { allowed := false, remaining := 0, resetAt := t1 + 60000,
          retryAfter := some (ceilDiv1000 (t1 + 60000 - t4)) } := by
    unfold c3s4
    rw [show (c3s3 t1 t2 t3).2
        = kvPut (kvPut (kvPut kvEmpty (generateKey "client" "custom") ⟨1, t1, t1 + 60000⟩)
              (generateKey "client" "custom") ⟨2, t1, t1 + 60000⟩)
            (generateKey "client" "custom") ⟨3, t1, t1 + 60000⟩ from
      congrArg Prod.snd e3]
    rw [checkLimit_deny _ "client" c3cfg "custom" t4 ⟨3, t1, t1 + 60000⟩
      rfl (kvPut_data_self _ _ _) (by show ¬t1 + 60000 < t4; omega)
      (by show c3cfg.maxRequests ≤ 3; decide)]
  refine ⟨by rw [e1], by rw [e2], by rw [e3], by rw [e4],
    ⟨ceilDiv1000 (t1 + 60000 - t4), by rw [e4], ?_⟩⟩
  unfold ceilDiv1000
  omega

theorem rate_limit_three_per_minute_witness :
    (c3s1 0).1.allowed = true ∧ (c3s2 0 1).1.allowed = true
      ∧ (c3s3 0 1 2).1.allowed = true ∧ (c3s4 0 1 2 3).1.allowed = false
      ∧ ∃ ra, (c3s4 0 1 2 3).1.retryAfter = some ra ∧ 0 < ra :=
  rate_limit_three_per_minute 0 1 2 3 (by norm_num) (by norm_num) (by norm_num) (by norm_num)

/-- C9: whenever the backing store's read throws, or its write throws on a
path that reaches a write, `checkLimit` fails open: it allows the request and
reports the policy's full `maxRequests` as remaining. -/
theorem rate_limit_fail_open (kv : KVStore) (identifier : String) (cfg : RateLimitConfig)
    (configName : String) (now : Nat)
    (h : kv.getThrows = true
      ∨ (kv.putThrows = true ∧ checkLimitWrites kv identifier cfg configName now = true)) :
    (checkLimit kv identifier cfg configName now).1
      = { allowed := true, remaining := (cfg.maxRequests : Int),
          resetAt := now + cfg.windowSizeSeconds * 1000, retryAfter := none } := by
  rcases h with hg | ⟨hp, hw⟩
  · simp [checkLimit, hg]
  · by_cases hg : kv.getThrows = true
    · simp [checkLimit, hg]
    · simp only [Bool.not_eq_true] at hg
      unfold checkLimitWrites at hw
      unfold checkLimit
      rw [hg]
      simp only [Bool.false_eq_true, if_false]
      cases hd : kv.data (generateKey identifier configName) with
      | none => simp [hp]
      | some entry =>
        rw [hd] at hw
        simp only [Bool.or_eq_true, decide_eq_true_eq] at hw
        by_cases hwin : entry.windowEnd < now
        · simp [hwin, hp]
        · have hc : entry.count < cfg.maxRequests := by
            rcases hw with hw | hw
            · exact absurd hw hwin
            · exact hw
          simp [hwin, hp, Nat.not_le_of_lt hc, Nat.not_le.mpr hc]

theorem rate_limit_fail_open_witness :
    (checkLimit ⟨fun _ => none, true, false⟩ "client" ⟨5, 60⟩ "custom" 100).1
        = { allowed := true, remaining := (5 : Int), resetAt := 100 + 60 * 1000,
            retryAfter := none }
      ∧ (checkLimit ⟨fun _ => none, false, true⟩ "client" ⟨5, 60⟩ "custom" 100).1
        = { allowed := true, remaining := (5 : Int), resetAt := 100 + 60 * 1000,
            retryAfter := none } :=
  ⟨rate_limit_fail_open _ "client" ⟨5, 60⟩ "custom" 100 (Or.inl rfl),
   rate_limit_fail_open _ "client" ⟨5, 60⟩ "custom" 100 (Or.inr ⟨rfl, rfl⟩)⟩

/-- C10: a denied `checkLimit` call (valid stored entry, unexpired window,
count at or above the policy maximum) performs no write: the resulting store
is exactly the incoming one, the stored entry is unchanged, and the request is
denied. -/
theorem rate_limit_denial_no_write (kv : KVStore) (identifier : String)
    (cfg : RateLimitConfig) (configName : String) (now : Nat) (entry : RateLimitEntry)
    (hg : kv.getThrows = false)
    (hd : kv.data (generateKey identifier configName) = some entry)
    (hwin : now ≤ entry.windowEnd) (hc : cfg.maxRequests ≤ entry.count) :
    (checkLimit kv identifier cfg configName now).1.allowed = false
      ∧ (checkLimit kv identifier cfg configName now).2 = kv
      ∧ (checkLimit kv identifier cfg configName now).2.data
          (generateKey identifier configName) = some entry := by
  have hwin' : ¬entry.windowEnd < now := Nat.not_lt.mpr hwin
  rw [checkLimit_deny kv identifier cfg configName now entry hg hd hwin' hc]
  exact ⟨rfl, rfl, hd⟩

theorem rate_limit_denial_no_write_witness :
    (checkLimit ⟨fun k => if k = generateKey "client" "burst" then some ⟨10, 0, 60000⟩ else none,
        false, false⟩ "client" ⟨10, 60⟩ "burst" 30000).1.allowed = false
      ∧ (checkLimit ⟨fun k => if k = generateKey "client" "burst" then some ⟨10, 0, 60000⟩ else none,
          false, false⟩ "client" ⟨10, 60⟩ "burst" 30000).2.data
            (generateKey "client" "burst") = some ⟨10, 0, 60000⟩ := by
  have h := rate_limit_denial_no_write
    ⟨fun k => if k = generateKey "client" "burst" then some ⟨10, 0, 60000⟩ else none,
      false, false⟩
    "client" ⟨10, 60⟩ "burst" 30000 ⟨10, 0, 60000⟩ rfl (by simp) (by norm_num) (by norm_num)
  exact ⟨h.1, h.2.2⟩

/-! ### Cache key -/

/-- C6, counterexample (negation of the universal claim).  The cache key hashes
the code through SHA-256, whose output space is finite while the space of code
strings is infinite, so two different code strings must share a key when the
other three arguments are fixed: changing the `code` argument alone does NOT
always change the key. -/
theorem cache_key_code_collision_cex :
    ∃ c1 c2 : String, c1 ≠ c2
      ∧ generateCacheKey c1 "quick" "javascript" "llama-3.1-8b-instruct"
        = generateCacheKey c2 "quick" "javascript" "llama-3.1-8b-instruct" := by
  obtain ⟨x, y, hxy, hf⟩ :=
    Finite.exists_ne_map_eq_of_infinite fun s : String => sha256Words (utf8Bytes s)
  refine ⟨x, y, hxy, ?_⟩
  have hh : hashCode x = hashCode y := by
    unfold hashCode
    rw [hf]
  unfold generateCacheKey
  rw [hh]

/-- C6, amended: the cache key is a deterministic pure function of its four
arguments, and changing exactly one of `category`, `language` or `model` (the
others fixed) always changes the key; changing only the `code` changes the key
exactly when the SHA-256 digests of the two code strings differ — which cannot
hold for every pair, as the collision counterexample shows. -/
theorem cache_key_amended (code cat cat' lang lang' model model' : String) :
    generateCacheKey code cat lang model = generateCacheKey code cat lang model
      ∧ (cat ≠ cat' →
          generateCacheKey code cat lang model ≠ generateCacheKey code cat' lang model)
      ∧ (lang ≠ lang' →
          generateCacheKey code cat lang model ≠ generateCacheKey code cat lang' model)
      ∧ (model ≠ model' →
          generateCacheKey code cat lang model ≠ generateCacheKey code cat lang model') := by
  refine ⟨rfl, ?_, ?_, ?_⟩
  · intro hne heq
    apply hne
    have h := congrArg String.data heq
    simp only [generateCacheKey, strData_append, List.append_assoc] at h
    have h1 := List.append_cancel_left h
    have h2 := List.append_cancel_left h1
    have h3 := List.append_cancel_left h2
    have h4 := List.append_cancel_right h3
    exact congrArg String.mk h4
  · intro hne heq
    apply hne
    have h := congrArg String.data heq
    simp only [generateCacheKey, strData_append, List.append_assoc] at h
    have h1 := List.append_cancel_left h
    have h2 := List.append_cancel_left h1
    have h3 := List.append_cancel_left h2
    have h4 := List.append_cancel_left h3
    have h5 := List.append_cancel_left h4
    have h6 := List.append_cancel_right h5
    exact congrArg String.mk h6
  · intro hne heq
    apply hne
    have h := congrArg String.data heq
    simp only [generateCacheKey, strData_append, List.append_assoc] at h
    have h1 := List.append_cancel_left h
    have h2 := List.append_cancel_left h1
    have h3 := List.append_cancel_left h2
    have h4 := List.append_cancel_left h3
    have h5 := List.append_cancel_left h4
    have h6 := List.append_cancel_left h5
    have h7 := List.append_cancel_left h6
    exact congrArg String.mk h7

theorem cache_key_amended_witness :
    generateCacheKey "x" "quick" "javascript" "m" ≠ generateCacheKey "x" "security" "javascript" "m"
      ∧ generateCacheKey "x" "quick" "javascript" "m" ≠ generateCacheKey "x" "quick" "python" "m"
      ∧ generateCacheKey "x" "quick" "javascript" "m" ≠ generateCacheKey "x" "quick" "javascript" "m2" :=
  ⟨(cache_key_amended "x" "quick" "security" "javascript" "javascript" "m" "m").2.1 (by decide),
   (cache_key_amended "x" "quick" "quick" "javascript" "python" "m" "m").2.2.1 (by decide),
   (cache_key_amended "x" "quick" "quick" "javascript" "javascript" "m" "m2").2.2.2 (by decide)⟩

end AiCodeReviewer








